import Mathlib

/-!
Verification of the `rice.py` satellite-imagery catalog client.

The Python source is shallowly embedded as follows.

* Python strings that flow through the query builder, the download routine
  and the KML coordinate formatter are modelled as lists of bytes
  (`List Nat`); `strBytes` converts a Lean string literal to its byte
  (code-point) list.  All strings the program manipulates are ASCII, where
  bytes and code points coincide.
* `urllib.parse.quote` (default `safe='/'`) and percent-decoding are
  modelled byte by byte (`quoteBytes`, `unquoteBytes`).
* Python `' AND '.join` / `str.split(' AND ')` / `str.replace('.SAFE',
  '.zip')` are modelled by `joinWith`, `splitAND` and `replaceSafe`,
  scanning left to right exactly as CPython does (leftmost,
  non-overlapping occurrences).
* The network, the filesystem and `hashlib.md5` are parameters of the
  download model (`downloadImpl`); XML documents are modelled as
  already-parsed element trees (`Entry`, `XChild`).
-/

/-- Bytes (code points) of an ASCII string literal. -/
def strBytes (s : String) : List Nat := s.data.map Char.toNat

/-- Python's substring test `pat in s` on byte strings. -/
def occursIn (pat : List Nat) : List Nat → Bool
  | [] => pat.isEmpty
  | b :: rest => pat.isPrefixOf (b :: rest) || occursIn pat rest

theorem occursInCons (pat : List Nat) (b : Nat) (rest : List Nat) :
    occursIn pat (b :: rest) = (pat.isPrefixOf (b :: rest) || occursIn pat rest) := rfl

theorem prefixOfSelfAppend (p t : List Nat) : p.isPrefixOf (p ++ t) = true := by
  simp only [ List.isPrefixOf_iff_prefix]
  exact List.prefix_append p t

theorem suffixOfCons (s l : List Nat) (b : Nat) (h : s.isSuffixOf l = true) :
    s.isSuffixOf (b :: l) = true := by
  simp only [ List.isSuffixOf_iff_suffix] at h ⊢
  exact h.trans (List.suffix_cons b l)

theorem occursInSelf (p t : List Nat) : occursIn p (p ++ t) = true := by
  cases p with
  | nil =>
    cases t with
    | nil => rfl
    | cons b t => rw [List.nil_append, occursInCons]; simp
  | cons b p =>
    have h := prefixOfSelfAppend (b :: p) t
    rw [List.cons_append] at h
    rw [List.cons_append, occursInCons, h]
    rfl

theorem occursInAppendMiddle (a p b : List Nat) : occursIn p (a ++ p ++ b) = true := by
  induction a with
  | nil => simpa using occursInSelf p b
  | cons c a ih =>
    rw [show (c :: a) ++ p ++ b = c :: (a ++ p ++ b) by simp, occursInCons, ih]
    simp

/-! ## Percent-encoding (`urllib.parse.quote` / decoding), byte level -/

/-- Bytes `urllib.parse.quote` leaves unescaped with the default
`safe='/'`: ASCII letters, digits, `_ . - ~` and `/`. -/
def isSafeByte (b : Nat) : Bool :=
  (48 ≤ b && b ≤ 57) || (65 ≤ b && b ≤ 90) || (97 ≤ b && b ≤ 122) ||
    b == 45 || b == 46 || b == 47 || b == 95 || b == 126

/-- Uppercase hex digit byte for a value below 16, as `quote` emits. -/
def hexUpper (n : Nat) : Nat := if n < 10 then 48 + n else 55 + n

/-- Hex-digit test used while percent-decoding. -/
def isHexDigitB (b : Nat) : Bool :=
  (48 ≤ b && b ≤ 57) || (65 ≤ b && b ≤ 70) || (97 ≤ b && b ≤ 102)

/-- Value of a hex digit byte. -/
def hexVal (b : Nat) : Nat :=
  if b ≤ 57 then b - 48 else if b ≤ 70 then b - 55 else b - 87

/-- `urllib.parse.quote(s)` on the byte level: safe bytes are copied, all
others become `%` followed by two uppercase hex digits. -/
def quoteBytes : List Nat → List Nat
  | [] => []
  | b :: rest =>
    if isSafeByte b then b :: quoteBytes rest
    else 37 :: hexUpper (b / 16) :: hexUpper (b % 16) :: quoteBytes rest

/-- Percent-decoding on the byte level: a `%` followed by two hex digits
becomes the denoted byte, anything else is copied verbatim. -/
def unquoteBytes : List Nat → List Nat
  | [] => []
  | b :: h1 :: h2 :: rest =>
    if b == 37 && isHexDigitB h1 && isHexDigitB h2 then
      (hexVal h1 * 16 + hexVal h2) :: unquoteBytes rest
    else b :: unquoteBytes (h1 :: h2 :: rest)
  | b :: rest => b :: unquoteBytes rest

theorem unquoteHexStep (h1 h2 : Nat) (rest : List Nat)
    (e1 : isHexDigitB h1 = true) (e2 : isHexDigitB h2 = true) :
    unquoteBytes (37 :: h1 :: h2 :: rest) = (hexVal h1 * 16 + hexVal h2) :: unquoteBytes rest := by
  simp [unquoteBytes, e1, e2]

theorem unquoteConsNe (b : Nat) (rest : List Nat) (hb : b ≠ 37) :
    unquoteBytes (b :: rest) = b :: unquoteBytes rest := by
  rcases rest with _ | ⟨h1, _ | ⟨h2, r⟩⟩
  · rfl
  · rfl
  · simp [unquoteBytes, hb]

theorem safeByteNe37 (b : Nat) (h : isSafeByte b = true) : b ≠ 37 := by
  intro hb
  subst hb
  simp [isSafeByte] at h

theorem hexUpperRound : ∀ n, n < 16 → isHexDigitB (hexUpper n) = true ∧ hexVal (hexUpper n) = n := by
  decide

/-- Percent-decoding inverts `quote` on byte strings. -/
theorem unquoteQuote (s : List Nat) (h : ∀ b ∈ s, b < 256) :
    unquoteBytes (quoteBytes s) = s := by
  induction s with
  | nil => rfl
  | cons b rest ih =>
    have hb : b < 256 := h b (List.mem_cons_self b rest)
    have hrest : ∀ x ∈ rest, x < 256 := fun x hx => h x (List.mem_cons_of_mem b hx)
    by_cases hs : isSafeByte b = true
    · rw [show quoteBytes (b :: rest) = b :: quoteBytes rest by simp [quoteBytes, hs]]
      rw [unquoteConsNe b _ (safeByteNe37 b hs), ih hrest]
    · rw [show quoteBytes (b :: rest) = 37 :: hexUpper (b / 16) :: hexUpper (b % 16) :: quoteBytes rest by
        simp [quoteBytes, hs]]
      have hd : b / 16 < 16 := by omega
      have hm : b % 16 < 16 := Nat.mod_lt b (by norm_num)
      rw [unquoteHexStep _ _ _ (hexUpperRound _ hd).1 (hexUpperRound _ hm).1]
      rw [(hexUpperRound _ hd).2, (hexUpperRound _ hm).2, ih hrest]
      congr 1
      omega

/-! ## `' AND '.join` and splitting on `" AND "` -/

/-- Python `sep.join(xs)`. -/
def joinWith (sep : List Nat) : List (List Nat) → List Nat
  | [] => []
  | [p] => p
  | p :: q :: ps => p ++ sep ++ joinWith sep (q :: ps)

/-- The byte string `" AND "` used by the query builder as separator. -/
def sepAND : List Nat := [32, 65, 78, 68, 32]

/-- Python `s.split(' AND ')`: scan left to right, cut at each leftmost
occurrence of the five-byte separator.  `acc` holds the bytes of the
current field in reverse. -/
def splitAND : List Nat → List Nat → List (List Nat)
  | acc, 32 :: 65 :: 78 :: 68 :: 32 :: rest => acc.reverse :: splitAND [] rest
  | acc, b :: rest => splitAND (b :: acc) rest
  | acc, [] => [acc.reverse]

theorem splitANDSepStep (acc rest : List Nat) :
    splitAND acc (32 :: 65 :: 78 :: 68 :: 32 :: rest) = acc.reverse :: splitAND [] rest := rfl

theorem splitANDNeg (acc : List Nat) (b : Nat) (rest : List Nat)
    (h : sepAND.isPrefixOf (b :: rest) = false) :
    splitAND acc (b :: rest) = splitAND (b :: acc) rest := by
  by_cases hb : b = 32
  · subst hb
    rcases rest with _ | ⟨c, rest⟩
    · rfl
    · by_cases hc : c = 65
      · subst hc
        rcases rest with _ | ⟨d, rest⟩
        · rfl
        · by_cases hd : d = 78
          · subst hd
            rcases rest with _ | ⟨e, rest⟩
            · rfl
            · by_cases he : e = 68
              · subst he
                rcases rest with _ | ⟨f, rest⟩
                · rfl
                · by_cases hf : f = 32
                  · subst hf
                    simp [sepAND, List.isPrefixOf] at h
                  · simp [splitAND, hf]
              · simp [splitAND, he]
          · simp [splitAND, hd]
      · simp [splitAND, hc]
  · simp [splitAND, hb]

/-- A field that neither contains `" AND "` nor ends in `" AND"` is
scanned over in one piece: the leftmost separator occurrence is the one
`join` inserted after it. -/
theorem splitANDNil (acc : List Nat) : splitAND acc [] = [acc.reverse] := rfl

theorem splitANDScan (p : List Nat) (hocc : occursIn sepAND p = false)
    (hend : List.isSuffixOf [32, 65, 78, 68] p = false) (acc t : List Nat) :
    splitAND acc (p ++ sepAND ++ t) = (acc.reverse ++ p) :: splitAND [] t := by
  induction p generalizing acc with
  | nil =>
    rw [show ([] : List Nat) ++ sepAND ++ t = 32 :: 65 :: 78 :: 68 :: 32 :: t by simp [sepAND]]
    rw [splitANDSepStep]
    simp
  | cons b p ih =>
    rw [occursInCons, Bool.or_eq_false_iff] at hocc
    have hend' : List.isSuffixOf [32, 65, 78, 68] p = false := by
      cases hs : List.isSuffixOf [32, 65, 78, 68] p with
      | false => rfl
      | true => exact absurd (suffixOfCons _ _ b hs) (by simp [hend])
    rw [show (b :: p) ++ sepAND ++ t = b :: (p ++ sepAND ++ t) by simp]
    cases hpre : sepAND.isPrefixOf (b :: (p ++ sepAND ++ t)) with
    | false =>
      rw [splitANDNeg _ _ _ hpre, ih hocc.2 hend' (b :: acc)]
      simp
    | true =>
      exfalso
      have hocc1 := hocc.1
      rcases p with _ | ⟨c, _ | ⟨d, _ | ⟨e, _ | ⟨f, p'⟩⟩⟩⟩
      · simp [sepAND] at hpre
      · simp [sepAND] at hpre
      · simp [sepAND] at hpre
      · simp [sepAND] at hpre
        obtain ⟨rfl, rfl, rfl, rfl⟩ := hpre
        exact absurd hend (by decide)
      · simp [sepAND] at hpre
        obtain ⟨rfl, rfl, rfl, rfl, rfl⟩ := hpre
        simp [sepAND] at hocc1

/-- A final field free of `" AND "` is emitted whole. -/
theorem splitANDLast (p : List Nat) (hocc : occursIn sepAND p = false) (acc : List Nat) :
    splitAND acc p = [acc.reverse ++ p] := by
  induction p generalizing acc with
  | nil => rw [splitANDNil]; simp
  | cons b p ih =>
    rw [occursInCons, Bool.or_eq_false_iff] at hocc
    rw [splitANDNeg _ _ _ hocc.1, ih hocc.2 (b :: acc)]
    simp

/-- Splitting on `" AND "` undoes `' AND '.join` when no joined field
contains the separator or ends in `" AND"`. -/
theorem splitANDJoin (ps : List (List Nat)) (hne : ps ≠ [])
    (h : ∀ p ∈ ps, occursIn sepAND p = false ∧ List.isSuffixOf [32, 65, 78, 68] p = false) :
    splitAND [] (joinWith sepAND ps) = ps := by
  induction ps with
  | nil => exact absurd rfl hne
  | cons p ps ih =>
    rcases ps with _ | ⟨q, ps'⟩
    · rw [show joinWith sepAND [p] = p from rfl]
      rw [splitANDLast p (h p (List.mem_cons_self p [])).1 []]
      simp
    · rw [show joinWith sepAND (p :: q :: ps') = p ++ sepAND ++ joinWith sepAND (q :: ps') from rfl]
      have hp := h p (List.mem_cons_self p (q :: ps'))
      rw [splitANDScan p hp.1 hp.2 [] (joinWith sepAND (q :: ps'))]
      rw [ih (by simp) (fun x hx => h x (List.mem_cons_of_mem p hx))]
      simp

/-! ## Query builder (`Search.__get_products`, lines 134-137) -/

/-- The `key + ':' + value` strings of line 135, in the mapping's
iteration order (Python dicts iterate in insertion order). -/
def pairStrings (options : List (List Nat × List Nat)) : List (List Nat) :=
  options.map (fun kv => kv.1 ++ 58 :: kv.2)

/-- The fixed base search URL of line 136, including `start=0&rows=100&q=`. -/
def baseSearchUrl : List Nat :=
  strBytes "https://scihub.copernicus.eu/dhus/search?start=0&rows=100&q="

/-- Line 137: base URL plus `urllib.parse.quote` of the joined query. -/
def buildRequestUrl (options : List (List Nat × List Nat)) : List Nat :=
  baseSearchUrl ++ quoteBytes (joinWith sepAND (pairStrings options))

theorem dropAppendLen (a b : List Nat) : (a ++ b).drop a.length = b := by
  induction a with
  | nil => rfl
  | cons c a ih => simp only [List.cons_append, List.length_cons, List.drop_succ_cons]; exact ih

theorem joinWithBytesLt (ps : List (List Nat)) (h : ∀ p ∈ ps, ∀ x ∈ p, x < 256) :
    ∀ x ∈ joinWith sepAND ps, x < 256 := by
  induction ps with
  | nil => intro x hx; simp [joinWith] at hx
  | cons p ps ih =>
    rcases ps with _ | ⟨q, ps'⟩
    · exact h p (List.mem_cons_self p [])
    · intro x hx
      rw [show joinWith sepAND (p :: q :: ps') = p ++ sepAND ++ joinWith sepAND (q :: ps')
        from rfl] at hx
      simp only [List.mem_append] at hx
      rcases hx with (hx | hx) | hx
      · exact h p (List.mem_cons_self p (q :: ps')) x hx
      · simp [sepAND] at hx
        omega
      · exact ih (fun r hr => h r (List.mem_cons_of_mem p hr)) x hx

/-- C1 (amended).  For every nonempty options mapping in which no
`key:value` pair string contains `" AND "` or ends in `" AND"` and whose
bytes are genuine bytes, the URL built by `Search.__get_products` is the
base search URL (with `start=0&rows=100&q=`) followed by the
percent-encoded query, and percent-decoding that query portion and
splitting it on `" AND "` yields exactly the `key:value` strings, one per
input pair, in the mapping's iteration order. -/
theorem c1_query_url_roundtrip (options : List (List Nat × List Nat))
    (hne : options ≠ [])
    (hb : ∀ p ∈ pairStrings options, ∀ x ∈ p, x < 256)
    (hsep : ∀ p ∈ pairStrings options,
      occursIn sepAND p = false ∧ List.isSuffixOf [32, 65, 78, 68] p = false) :
    buildRequestUrl options
        = baseSearchUrl ++ quoteBytes (joinWith sepAND (pairStrings options))
      ∧ splitAND [] (unquoteBytes ((buildRequestUrl options).drop baseSearchUrl.length))
          = pairStrings options := by
  constructor
  · rfl
  · rw [buildRequestUrl, dropAppendLen, unquoteQuote _ (joinWithBytesLt _ hb)]
    refine splitANDJoin _ ?_ hsep
    intro hnil
    exact hne (by simpa [pairStrings] using hnil)

/-- C1 witness: the options mapping `{"identifier": "S1A_TEST"}`. -/
theorem c1_query_url_roundtrip_witness :
    buildRequestUrl [(strBytes "identifier", strBytes "S1A_TEST")]
        = baseSearchUrl
            ++ quoteBytes (joinWith sepAND (pairStrings [(strBytes "identifier", strBytes "S1A_TEST")]))
      ∧ splitAND []
            (unquoteBytes
              ((buildRequestUrl [(strBytes "identifier", strBytes "S1A_TEST")]).drop
                baseSearchUrl.length))
          = pairStrings [(strBytes "identifier", strBytes "S1A_TEST")] :=
  c1_query_url_roundtrip _ (by decide) (by decide) (by decide)

/-- C1 counterexample: with the single pair `a ↦ "x AND y"` the decoded
query splits into `["a:x", "y"]`, not `["a:x AND y"]`, so the claimed
round trip fails for mappings whose values contain `" AND "`. -/
theorem c1_roundtrip_counterexample :
    splitAND []
        (unquoteBytes
          ((buildRequestUrl [(strBytes "a", strBytes "x AND y")]).drop baseSearchUrl.length))
      ≠ pairStrings [(strBytes "a", strBytes "x AND y")] := by
  decide

/-! ## Target filename (`Product.download`, line 47) -/

/-- The byte string `".SAFE"`. -/
def dotSAFE : List Nat := [46, 83, 65, 70, 69]

/-- The byte string `".zip"`. -/
def dotZip : List Nat := [46, 122, 105, 112]

/-- Python `s.replace('.SAFE', '.zip')` as executed on line 47: every
leftmost, non-overlapping occurrence of `.SAFE` is replaced by `.zip`. -/
def replaceSafe : List Nat → List Nat
  | 46 :: 83 :: 65 :: 70 :: 69 :: rest => 46 :: 122 :: 105 :: 112 :: replaceSafe rest
  | b :: rest => b :: replaceSafe rest
  | [] => []

/-- The download target filename derived from the `filename` attribute
(line 47 of `Product.download`). -/
def downloadTargetFilename (filenameAttr : List Nat) : List Nat := replaceSafe filenameAttr

theorem replaceSafeStep (rest : List Nat) :
    replaceSafe (46 :: 83 :: 65 :: 70 :: 69 :: rest) = 46 :: 122 :: 105 :: 112 :: replaceSafe rest := rfl

theorem replaceSafeNeg (b : Nat) (rest : List Nat)
    (h : dotSAFE.isPrefixOf (b :: rest) = false) :
    replaceSafe (b :: rest) = b :: replaceSafe rest := by
  by_cases hb : b = 46
  · subst hb
    rcases rest with _ | ⟨c, rest⟩
    · rfl
    · by_cases hc : c = 83
      · subst hc
        rcases rest with _ | ⟨d, rest⟩
        · rfl
        · by_cases hd : d = 65
          · subst hd
            rcases rest with _ | ⟨e, rest⟩
            · rfl
            · by_cases he : e = 70
              · subst he
                rcases rest with _ | ⟨f, rest⟩
                · rfl
                · by_cases hf : f = 69
                  · subst hf
                    simp [dotSAFE, List.isPrefixOf] at h
                  · simp [replaceSafe, hf]
              · simp [replaceSafe, he]
          · simp [replaceSafe, hd]
      · simp [replaceSafe, hc]
  · simp [replaceSafe, hb]

/-- A string free of `.SAFE` is returned unchanged by the replacement. -/
theorem replaceSafeNoOcc (s : List Nat) (h : occursIn dotSAFE s = false) :
    replaceSafe s = s := by
  induction s with
  | nil => rfl
  | cons b s ih =>
    rw [occursInCons, Bool.or_eq_false_iff] at h
    rw [replaceSafeNeg _ _ h.1, ih h.2]

/-- Scanning a `.SAFE`-free field followed by `.SAFE` replaces exactly
that occurrence and continues after it. -/
theorem replaceSafeScan (p t : List Nat) (hocc : occursIn dotSAFE p = false) :
    replaceSafe (p ++ dotSAFE ++ t) = p ++ dotZip ++ replaceSafe t := by
  induction p with
  | nil =>
    rw [show ([] : List Nat) ++ dotSAFE ++ t = 46 :: 83 :: 65 :: 70 :: 69 :: t by simp [dotSAFE]]
    rw [replaceSafeStep]
    simp [dotZip]
  | cons b p ih =>
    rw [occursInCons, Bool.or_eq_false_iff] at hocc
    have hocc1 := hocc.1
    rw [show (b :: p) ++ dotSAFE ++ t = b :: (p ++ dotSAFE ++ t) by simp]
    cases hpre : dotSAFE.isPrefixOf (b :: (p ++ dotSAFE ++ t)) with
    | false =>
      rw [replaceSafeNeg _ _ hpre, ih hocc.2]
      simp
    | true =>
      exfalso
      rcases p with _ | ⟨c, _ | ⟨d, _ | ⟨e, _ | ⟨f, p'⟩⟩⟩⟩
      · simp [dotSAFE] at hpre
      · simp [dotSAFE] at hpre
      · simp [dotSAFE] at hpre
      · simp [dotSAFE] at hpre
      · simp [dotSAFE] at hpre
        obtain ⟨rfl, rfl, rfl, rfl, rfl⟩ := hpre
        simp [dotSAFE] at hocc1

/-- Replacing `.SAFE` by `.zip` sends a `.SAFE`-join of clean fields to
the corresponding `.zip`-join. -/
theorem replaceSafeJoin (xs : List (List Nat))
    (h : ∀ x ∈ xs, occursIn dotSAFE x = false) :
    replaceSafe (joinWith dotSAFE xs) = joinWith dotZip xs := by
  induction xs with
  | nil => rfl
  | cons x xs ih =>
    rcases xs with _ | ⟨y, xs'⟩
    · exact replaceSafeNoOcc x (h x (List.mem_cons_self x []))
    · rw [show joinWith dotSAFE (x :: y :: xs') = x ++ dotSAFE ++ joinWith dotSAFE (y :: xs')
        from rfl]
      rw [replaceSafeScan x _ (h x (List.mem_cons_self x (y :: xs')))]
      rw [ih (fun r hr => h r (List.mem_cons_of_mem x hr))]
      rfl

/-- C2 (amended).  The download target filename is obtained from the
`filename` attribute by replacing every leftmost, non-overlapping
occurrence of `.SAFE` with `.zip` — not only a `.SAFE` suffix.  Stated
via the join decomposition: a filename assembled from `.SAFE`-free
fields joined by `.SAFE` maps to the same fields joined by `.zip`. -/
theorem c2_download_target_filename (xs : List (List Nat))
    (h : ∀ x ∈ xs, occursIn dotSAFE x = false) :
    downloadTargetFilename (joinWith dotSAFE xs) = joinWith dotZip xs :=
  replaceSafeJoin xs h

/-- C2 witness: the spec's example `S1A_TEST.SAFE ↦ S1A_TEST.zip`. -/
theorem c2_download_target_filename_witness :
    downloadTargetFilename (strBytes "S1A_TEST.SAFE") = strBytes "S1A_TEST.zip" := by
  have h := c2_download_target_filename [strBytes "S1A_TEST", ([] : List Nat)] (by decide)
  rw [show joinWith dotSAFE [strBytes "S1A_TEST", ([] : List Nat)] = strBytes "S1A_TEST.SAFE"
      from by decide,
    show joinWith dotZip [strBytes "S1A_TEST", ([] : List Nat)] = strBytes "S1A_TEST.zip"
      from by decide] at h
  exact h

/-- C2 counterexample: in `".SAFE!"` the occurrence of `.SAFE` is not a
suffix, yet the code changes it, contradicting the claim that non-suffix
occurrences are left unchanged. -/
theorem c2_nonsuffix_counterexample :
    downloadTargetFilename (strBytes ".SAFE!") = strBytes ".zip!"
      ∧ downloadTargetFilename (strBytes ".SAFE!") ≠ strBytes ".SAFE!" := by
  decide

/-! ## Download model (`Product.download`, lines 46-73) -/

/-- `str.lower()` as it acts on the ASCII checksum text (line 66). -/
def asciiLower (s : List Nat) : List Nat :=
  s.map (fun b => if 65 ≤ b ∧ b ≤ 90 then b + 32 else b)

/-- The stderr warning line of lines 69-71: the format string
`'md5 checksum of ... failed, expected=..., actual=...'` filled in with
the filename, the expected digest and the actual digest. -/
def warnLine (filename expected actual : List Nat) : List Nat :=
  strBytes "md5 checksum of " ++ filename ++ strBytes " failed, expected="
    ++ expected ++ strBytes ", actual=" ++ actual

/-- The checksum sub-resource URL built on lines 61-63 from the product's
catalog identifier. -/
def checksumUrlFor (id : List Nat) : List Nat :=
  strBytes "https://scihub.copernicus.eu/dhus/odata/v1/Products('" ++ id
    ++ strBytes "')/Checksum/Value/$value"

/-- Observable outcome of one `Product.download` call: the returned path,
the destination file afterwards, HTTP GET counts and targets, file
writes, and warning lines printed to stderr. -/
structure DlResult where
  path : List Nat
  fileAfter : Option (List Nat)
  bodyFetches : Nat
  bodyUrl : Option (List Nat)
  checksumFetches : Nat
  checksumUrl : List Nat
  writes : Nat
  warnings : List (List Nat)
deriving DecidableEq

/-- Shallow embedding of `Product.download` (lines 46-73).  `md5fn` maps
file content to the lowercase hex digest `hashlib.md5` computes over it;
`fileBefore` is the destination file's content when the file exists and
`none` otherwise (`os.path.isfile`, line 50); `body` is the response body
at the product link; `checksum` is the checksum endpoint's response text.
When the file exists, the body GET and the file write are skipped
(lines 50-59); the checksum GET, the digest and the comparison always run
(lines 61-71); the destination path is returned unconditionally
(line 73). -/
def downloadImpl (md5fn : List Nat → List Nat) (filenameAttr dest productLink id : List Nat)
    (fileBefore : Option (List Nat)) (body checksum : List Nat) : DlResult :=
  let filename := downloadTargetFilename filenameAttr
  let content := fileBefore.getD body
  let expected := asciiLower checksum
  let actual := md5fn content
  { path := dest ++ 47 :: filename
    fileAfter := some content
    bodyFetches := if fileBefore.isSome then 0 else 1
    bodyUrl := if fileBefore.isSome then none else some productLink
    checksumFetches := 1
    checksumUrl := checksumUrlFor id
    writes := if fileBefore.isSome then 0 else 1
    warnings := if actual = expected then [] else [warnLine filename expected actual] }

/-- C3 (amended).  One `Product.download` call performs one conditional
file write and one HTTP body GET, both conditional on the destination
file being absent, plus one unconditional checksum-fetch GET; hence when
the destination file is absent the call issues exactly two HTTP GETs, and
when it is present exactly one. -/
theorem c3_download_effect_counts (md5fn : List Nat → List Nat)
    (fn dest link id body ck : List Nat) (fileBefore : Option (List Nat)) :
    (downloadImpl md5fn fn dest link id fileBefore body ck).writes
        = (if fileBefore.isSome then 0 else 1)
      ∧ (downloadImpl md5fn fn dest link id fileBefore body ck).bodyFetches
          = (if fileBefore.isSome then 0 else 1)
      ∧ (downloadImpl md5fn fn dest link id fileBefore body ck).checksumFetches = 1
      ∧ (downloadImpl md5fn fn dest link id fileBefore body ck).bodyFetches
            + (downloadImpl md5fn fn dest link id fileBefore body ck).checksumFetches
          = (if fileBefore.isSome then 1 else 2) := by
  cases fileBefore <;> simp [downloadImpl]

/-- C3 counterexample: with the destination file absent the call makes
exactly two HTTP GETs (one body fetch plus one checksum fetch), not
three as claimed. -/
theorem c3_three_gets_counterexample :
    (downloadImpl (fun _ => strBytes "aa") (strBytes "f.SAFE") (strBytes ".") (strBytes "L")
          (strBytes "I") none (strBytes "B") (strBytes "aa")).bodyFetches
        + (downloadImpl (fun _ => strBytes "aa") (strBytes "f.SAFE") (strBytes ".") (strBytes "L")
          (strBytes "I") none (strBytes "B") (strBytes "aa")).checksumFetches
      ≠ 3 := by decide

theorem warnLineParts (f e a : List Nat) :
    occursIn f (warnLine f e a) = true ∧ occursIn e (warnLine f e a) = true
      ∧ occursIn a (warnLine f e a) = true := by
  refine ⟨?_, ?_, ?_⟩
  · have h := occursInAppendMiddle (strBytes "md5 checksum of ") f
      (strBytes " failed, expected=" ++ e ++ (strBytes ", actual=" ++ a))
    rw [show strBytes "md5 checksum of " ++ f
        ++ (strBytes " failed, expected=" ++ e ++ (strBytes ", actual=" ++ a))
        = warnLine f e a by simp [warnLine]] at h
    exact h
  · have h := occursInAppendMiddle
      (strBytes "md5 checksum of " ++ f ++ strBytes " failed, expected=") e
      (strBytes ", actual=" ++ a)
    rw [show strBytes "md5 checksum of " ++ f ++ strBytes " failed, expected=" ++ e
        ++ (strBytes ", actual=" ++ a) = warnLine f e a by simp [warnLine]] at h
    exact h
  · have h := occursInAppendMiddle
      (strBytes "md5 checksum of " ++ f ++ strBytes " failed, expected=" ++ e
        ++ strBytes ", actual=") a []
    rw [List.append_nil] at h
    exact h

/-- C5.  Whenever the digest computed over the (ensured) local file
differs from the lowercased server checksum, `Product.download` emits
exactly one stderr warning line — containing the target filename, the
expected hex string and the actual hex string — still returns the local
file path, keeps the local file (it is not deleted), and performs no
retry (at most the single conditional body fetch). -/
theorem c5_checksum_mismatch_warning (md5fn : List Nat → List Nat)
    (fn dest link id body ck : List Nat) (fileBefore : Option (List Nat))
    (h : md5fn (fileBefore.getD body) ≠ asciiLower ck) :
    (downloadImpl md5fn fn dest link id fileBefore body ck).warnings
        = [warnLine (downloadTargetFilename fn) (asciiLower ck) (md5fn (fileBefore.getD body))]
      ∧ occursIn (downloadTargetFilename fn)
            (warnLine (downloadTargetFilename fn) (asciiLower ck) (md5fn (fileBefore.getD body)))
          = true
      ∧ occursIn (asciiLower ck)
            (warnLine (downloadTargetFilename fn) (asciiLower ck) (md5fn (fileBefore.getD body)))
          = true
      ∧ occursIn (md5fn (fileBefore.getD body))
            (warnLine (downloadTargetFilename fn) (asciiLower ck) (md5fn (fileBefore.getD body)))
          = true
      ∧ (downloadImpl md5fn fn dest link id fileBefore body ck).path
          = dest ++ 47 :: downloadTargetFilename fn
      ∧ (downloadImpl md5fn fn dest link id fileBefore body ck).fileAfter
          = some (fileBefore.getD body)
      ∧ (downloadImpl md5fn fn dest link id fileBefore body ck).bodyFetches ≤ 1 := by
  have hw := warnLineParts (downloadTargetFilename fn) (asciiLower ck) (md5fn (fileBefore.getD body))
  refine ⟨?_, hw.1, hw.2.1, hw.2.2, ?_, ?_, ?_⟩
  · simp [downloadImpl, h]
  · rfl
  · rfl
  · cases fileBefore <;> simp [downloadImpl]

/-- C5 witness: a one-byte file whose stubbed digest `"cd"` differs from
the stubbed server checksum `"AB"` (lowercased to `"ab"`). -/
theorem c5_checksum_mismatch_warning_witness :
    (downloadImpl (fun _ => strBytes "cd") (strBytes "f.SAFE") (strBytes ".") (strBytes "L")
          (strBytes "I") (some [7]) (strBytes "B") (strBytes "AB")).warnings
        = [warnLine (downloadTargetFilename (strBytes "f.SAFE")) (asciiLower (strBytes "AB"))
            ((fun _ => strBytes "cd") ((some [7]).getD (strBytes "B")))]
      ∧ occursIn (downloadTargetFilename (strBytes "f.SAFE"))
            (warnLine (downloadTargetFilename (strBytes "f.SAFE")) (asciiLower (strBytes "AB"))
              ((fun _ => strBytes "cd") ((some [7]).getD (strBytes "B"))))
          = true
      ∧ occursIn (asciiLower (strBytes "AB"))
            (warnLine (downloadTargetFilename (strBytes "f.SAFE")) (asciiLower (strBytes "AB"))
              ((fun _ => strBytes "cd") ((some [7]).getD (strBytes "B"))))
          = true
      ∧ occursIn ((fun _ => strBytes "cd") ((some [7]).getD (strBytes "B")))
            (warnLine (downloadTargetFilename (strBytes "f.SAFE")) (asciiLower (strBytes "AB"))
              ((fun _ => strBytes "cd") ((some [7]).getD (strBytes "B"))))
          = true
      ∧ (downloadImpl (fun _ => strBytes "cd") (strBytes "f.SAFE") (strBytes ".") (strBytes "L")
            (strBytes "I") (some [7]) (strBytes "B") (strBytes "AB")).path
          = strBytes "." ++ 47 :: downloadTargetFilename (strBytes "f.SAFE")
      ∧ (downloadImpl (fun _ => strBytes "cd") (strBytes "f.SAFE") (strBytes ".") (strBytes "L")
            (strBytes "I") (some [7]) (strBytes "B") (strBytes "AB")).fileAfter
          = some ((some [7]).getD (strBytes "B"))
      ∧ (downloadImpl (fun _ => strBytes "cd") (strBytes "f.SAFE") (strBytes ".") (strBytes "L")
            (strBytes "I") (some [7]) (strBytes "B") (strBytes "AB")).bodyFetches ≤ 1 :=
  c5_checksum_mismatch_warning (fun _ => strBytes "cd") (strBytes "f.SAFE") (strBytes ".")
    (strBytes "L") (strBytes "I") (strBytes "B") (strBytes "AB") (some [7]) (by decide)

/-- C6.  If the derived target file already exists at the destination,
`Product.download` performs no HTTP body fetch and no file write (the
existing file is never overwritten), and calling download twice in
succession returns the same path both times with no second body fetch. -/
theorem c6_download_idempotent (md5fn : List Nat → List Nat)
    (fn dest link id body ck c : List Nat) (fileBefore : Option (List Nat))
    (h : fileBefore = some c) :
    (downloadImpl md5fn fn dest link id fileBefore body ck).bodyFetches = 0
      ∧ (downloadImpl md5fn fn dest link id fileBefore body ck).writes = 0
      ∧ (downloadImpl md5fn fn dest link id fileBefore body ck).fileAfter = some c
      ∧ (downloadImpl md5fn fn dest link id
            (downloadImpl md5fn fn dest link id fileBefore body ck).fileAfter body ck).path
          = (downloadImpl md5fn fn dest link id fileBefore body ck).path
      ∧ (downloadImpl md5fn fn dest link id
            (downloadImpl md5fn fn dest link id fileBefore body ck).fileAfter body ck).bodyFetches
          = 0
      ∧ (downloadImpl md5fn fn dest link id
            (downloadImpl md5fn fn dest link id fileBefore body ck).fileAfter body ck).writes
          = 0 := by
  subst h
  refine ⟨rfl, rfl, rfl, rfl, rfl, rfl⟩

/-- C6 witness: the file already holds `[7]`; both calls return the same
path and neither fetches the body. -/
theorem c6_download_idempotent_witness :
    (downloadImpl (fun _ => strBytes "aa") (strBytes "f.SAFE") (strBytes ".") (strBytes "L")
          (strBytes "I") (some [7]) (strBytes "B") (strBytes "aa")).bodyFetches = 0
      ∧ (downloadImpl (fun _ => strBytes "aa") (strBytes "f.SAFE") (strBytes ".") (strBytes "L")
            (strBytes "I") (some [7]) (strBytes "B") (strBytes "aa")).writes = 0
      ∧ (downloadImpl (fun _ => strBytes "aa") (strBytes "f.SAFE") (strBytes ".") (strBytes "L")
            (strBytes "I") (some [7]) (strBytes "B") (strBytes "aa")).fileAfter = some [7]
      ∧ (downloadImpl (fun _ => strBytes "aa") (strBytes "f.SAFE") (strBytes ".") (strBytes "L")
            (strBytes "I")
            (downloadImpl (fun _ => strBytes "aa") (strBytes "f.SAFE") (strBytes ".")
              (strBytes "L") (strBytes "I") (some [7]) (strBytes "B") (strBytes "aa")).fileAfter
            (strBytes "B") (strBytes "aa")).path
          = (downloadImpl (fun _ => strBytes "aa") (strBytes "f.SAFE") (strBytes ".") (strBytes "L")
              (strBytes "I") (some [7]) (strBytes "B") (strBytes "aa")).path
      ∧ (downloadImpl (fun _ => strBytes "aa") (strBytes "f.SAFE") (strBytes ".") (strBytes "L")
            (strBytes "I")
            (downloadImpl (fun _ => strBytes "aa") (strBytes "f.SAFE") (strBytes ".")
              (strBytes "L") (strBytes "I") (some [7]) (strBytes "B") (strBytes "aa")).fileAfter
            (strBytes "B") (strBytes "aa")).bodyFetches = 0
      ∧ (downloadImpl (fun _ => strBytes "aa") (strBytes "f.SAFE") (strBytes ".") (strBytes "L")
            (strBytes "I")
            (downloadImpl (fun _ => strBytes "aa") (strBytes "f.SAFE") (strBytes ".")
              (strBytes "L") (strBytes "I") (some [7]) (strBytes "B") (strBytes "aa")).fileAfter
            (strBytes "B") (strBytes "aa")).writes = 0 :=
  c6_download_idempotent (fun _ => strBytes "aa") (strBytes "f.SAFE") (strBytes ".") (strBytes "L")
    (strBytes "I") (strBytes "B") (strBytes "aa") [7] (some [7]) rfl

/-! ## Response entries and `Product.__init__` (lines 31-44) -/

/-- A parsed XML child element of an `entry`: its tag, its attribute
dictionary, and its text content (Python `Element.text`, possibly
`None`). -/
structure XChild where
  tag : String
  attrib : List (String × String)
  text : Option String
deriving DecidableEq

/-- A parsed `entry` element: iterating over it yields its children. -/
structure Entry where
  children : List XChild
deriving DecidableEq

/-- The namespaced tag `entry.find` looks up on line 37. -/
def atomIdTag : String := "\x7bhttp://www.w3.org/2005/Atom\x7did"

/-- The namespaced tag `entry.find` looks up on line 38. -/
def atomLinkTag : String := "\x7bhttp://www.w3.org/2005/Atom\x7dlink"

/-- `entry.find(tag)`: the first child with the given tag, if any. -/
def findTag (e : Entry) (t : String) : Option XChild :=
  e.children.find? (fun c => c.tag == t)

/-- `child.attrib[k]` as an optional lookup (XML attributes are unique,
so the first match is the match). -/
def attribGet (c : XChild) (k : String) : Option String :=
  (c.attrib.find? (fun kv => kv.1 == k)).map Prod.snd

/-- The dict comprehension of lines 34-36: one `(name, text)` pair per
child carrying a `name` attribute, in document order.  A later duplicate
key overwrites an earlier one, which `lookupAttr` reflects by scanning
from the right. -/
def collectAttrs (children : List XChild) : List (String × Option String) :=
  children.filterMap (fun c => (attribGet c "name").map (fun n => (n, c.text)))

/-- Lookup in the attribute dict built by `collectAttrs` (last binding
wins, matching Python dict semantics).  `none` models the `KeyError`
raised at first use of a missing key. -/
def lookupAttr (attrs : List (String × Option String)) (k : String) : Option (Option String) :=
  (attrs.reverse.find? (fun kv => kv.1 == k)).map Prod.snd

/-- A `Product`: credentials, the attribute dict, the catalog identifier
(`entry.find(id).text`, possibly `None`) and the download link. -/
structure Product where
  auth : String × String
  attributes : List (String × Option String)
  id : Option String
  product_link : String
deriving DecidableEq

/-- Attribute access `self.attributes[k]` (outer `none` = `KeyError`). -/
def Product.attr (p : Product) (k : String) : Option (Option String) :=
  lookupAttr p.attributes k

/-- The three ways `Product.__init__` (lines 32-38) can raise before the
object exists: no Atom `id` child (line 37, `AttributeError` on
`None.text`), no Atom `link` child (line 38, `AttributeError` on
`None.attrib`), or a `link` child without `href` (line 38, `KeyError`). -/
inductive InitError where
  | missingId
  | missingLink
  | missingHref
deriving DecidableEq

/-- Shallow embedding of `Product.__init__` (lines 32-38): the attribute
dict is collected unconditionally, then the `id` element and the `link`
element's `href` are looked up, raising (modelled as `Except.error`) when
absent. -/
def mkProduct (auth : String × String) (e : Entry) : Except InitError Product :=
  match findTag e atomIdTag with
  | none => Except.error InitError.missingId
  | some idc =>
    match findTag e atomLinkTag with
    | none => Except.error InitError.missingLink
    | some lc =>
      match attribGet lc "href" with
      | none => Except.error InitError.missingHref
      | some href => Except.ok (Product.mk auth (collectAttrs e.children) idc.text href)

/-! ## Product operations as state transformers (for the immutability
invariant): each returns its observable result together with the product
object as it is after the call.  None of the method bodies in the source
assigns to `self`, so each embedded operation returns the object
unchanged. -/

/-- `Product.name` (lines 43-44): returns `self.attributes['identifier']`
(outer `none` models the `KeyError` when the key is absent). -/
def Product.nameOp (p : Product) : Option (Option String) × Product :=
  (p.attr "identifier", p)

/-- `Product.__str__` (lines 40-41): renders the attribute dict; the
rendered value is modelled by the dict itself. -/
def Product.strOp (p : Product) : List (String × Option String) × Product :=
  (p.attributes, p)

/-! ### KML rendering (`Product.to_kml`, lines 75-106) -/

/-- Indices at which `pat` occurs in `s`. -/
def positionsOf (pat s : List Nat) : List Nat :=
  (List.range s.length).filter (fun i => pat.isPrefixOf (s.drop i))

/-- Group 1 of `re.match(r".*((((...))))" ...)` — written with literal
escaped parentheses in the source (line 104).  Both wildcards are greedy
and the match is anchored at the start, so group 1 runs from the last
`((` still followed by some `))` to the last such `))`. -/
def ringInner (s : List Nat) : Option (List Nat) :=
  match ((positionsOf [40, 40] s).filter
      (fun i => (positionsOf [41, 41] s).any (fun j => i + 2 ≤ j))).getLast? with
  | none => none
  | some i =>
    match ((positionsOf [41, 41] s).filter (fun j => i + 2 ≤ j)).getLast? with
    | none => none
    | some j => some ((s.drop (i + 2)).take (j - (i + 2)))

/-- Python `s.split(c)` for a one-byte separator (line 105). -/
def splitByte (c : Nat) (s : List Nat) : List (List Nat) :=
  s.foldr (fun b acc =>
    match acc with
    | cur :: rest => if b = c then [] :: cur :: rest else (b :: cur) :: rest
    | [] => [[]]) [[]]

/-- Line 105: split the ring text on `,`, replace each space by a comma,
append `,0`, and join the pieces with single spaces; `none` when the
regular expression of line 104 does not match. -/
def kmlCoordText (footprint : List Nat) : Option (List Nat) :=
  (ringInner footprint).map (fun inner =>
    joinWith [32] ((splitByte 44 inner).map
      (fun cord => cord.map (fun b => if b = 32 then 44 else b) ++ [44, 48])))

/-- The KML fragment `to_kml` emits for one product: folder name,
placemark name, time span, extended data and the ring coordinates. -/
structure KmlFragment where
  folderName : Option String
  placemarkName : Option String
  timeBegin : Option String
  timeEnd : Option String
  modeData : Option String
  ingestionData : Option String
  idData : Option String
  linkData : String
  coordinates : List Nat
deriving DecidableEq

/-- `Product.to_kml` (lines 75-106) as a state transformer: the fragment
is built from the attribute dict (each lookup can raise `KeyError`,
modelled by `none`), the identifier and the link; the coordinates come
from the footprint regular expression (line 104), failing when the
footprint is absent, `None`, or does not match. -/
def Product.toKmlOp (p : Product) : Option KmlFragment × Product :=
  ((do
    let beginp ← p.attr "beginposition"
    let ident ← p.attr "identifier"
    let endp ← p.attr "endposition"
    let mode ← p.attr "sensoroperationalmode"
    let ingest ← p.attr "ingestiondate"
    let fpo ← p.attr "footprint"
    let fp ← fpo
    let cords ← kmlCoordText (strBytes fp)
    pure (KmlFragment.mk beginp ident beginp endp mode ingest p.id p.product_link cords)), p)

/-- `Product.download` (lines 46-73) as a state transformer: the result
is `downloadImpl` applied to the product's own fields; `none` models the
raise when the `filename` attribute or the identifier is missing or
`None`. -/
def Product.downloadOp (md5fn : List Nat → List Nat) (dest : List Nat)
    (fileBefore : Option (List Nat)) (body checksum : List Nat) (p : Product) :
    Option DlResult × Product :=
  ((match p.attr "filename", p.id with
    | some (some fn), some pid =>
        some (downloadImpl md5fn (strBytes fn) dest (strBytes p.product_link) (strBytes pid)
          fileBefore body checksum)
    | _, _ => none), p)

/-- C9.  A Product's attribute mapping, catalog identifier and download
link are fixed at construction; `name`, string conversion, `to_kml` and
`download` all leave the object exactly as it was. -/
theorem c9_product_immutable (p : Product) (md5fn : List Nat → List Nat)
    (dest : List Nat) (fileBefore : Option (List Nat)) (body checksum : List Nat) :
    (Product.nameOp p).2 = p
      ∧ (Product.strOp p).2 = p
      ∧ (Product.toKmlOp p).2 = p
      ∧ (Product.downloadOp md5fn dest fileBefore body checksum p).2 = p :=
  ⟨rfl, rfl, rfl, rfl⟩

/-- C10.  Construction fails immediately when the Atom `id` child or the
Atom `link` child with an `href` attribute is missing; with both present
it succeeds no matter which named attributes exist, and a missing named
attribute only fails later, at its first use (here: `name()`). -/
theorem c10_init_fails_fast (auth : String × String) (e : Entry) :
    (findTag e atomIdTag = none → mkProduct auth e = Except.error InitError.missingId)
      ∧ (∀ idc, findTag e atomIdTag = some idc → findTag e atomLinkTag = none →
          mkProduct auth e = Except.error InitError.missingLink)
      ∧ (∀ idc lc, findTag e atomIdTag = some idc → findTag e atomLinkTag = some lc →
          attribGet lc "href" = none → mkProduct auth e = Except.error InitError.missingHref)
      ∧ (∀ idc lc href, findTag e atomIdTag = some idc → findTag e atomLinkTag = some lc →
          attribGet lc "href" = some href →
          mkProduct auth e = Except.ok (Product.mk auth (collectAttrs e.children) idc.text href))
      ∧ (∀ p, mkProduct auth e = Except.ok p → Product.attr p "identifier" = none →
          (Product.nameOp p).1 = none) := by
  refine ⟨?_, ?_, ?_, ?_, ?_⟩
  · intro h; simp [mkProduct, h]
  · intro idc h1 h2; simp [mkProduct, h1, h2]
  · intro idc lc h1 h2 h3; simp [mkProduct, h1, h2, h3]
  · intro idc lc href h1 h2 h3; simp [mkProduct, h1, h2, h3]
  · intro p _ hid; exact hid

/-- An entry with no children at all: no `id`, no `link`. -/
def entryNoId : Entry := Entry.mk []

/-- A well-formed entry (id and link with href) carrying no named
attributes. -/
def entryGood : Entry :=
  Entry.mk [XChild.mk atomIdTag [] (some "ID1"), XChild.mk atomLinkTag [("href", "http://x")] none]

/-- The product `mkProduct` builds from `entryGood`. -/
def productGood : Product := Product.mk ("u", "p") [] (some "ID1") "http://x"

/-- C10 witness: the childless entry fails with `missingId`; the
well-formed entry without an `identifier` attribute constructs fine and
only `name()` fails. -/
theorem c10_init_fails_fast_witness :
    mkProduct ("u", "p") entryNoId = Except.error InitError.missingId
      ∧ (Product.nameOp productGood).1 = none :=
  ⟨(c10_init_fails_fast ("u", "p") entryNoId).1 rfl,
   (c10_init_fails_fast ("u", "p") entryGood).2.2.2.2 productGood rfl rfl⟩

/-! ## `Search.__get_products` response handling (lines 140-147) -/

/-- Outcome of `Search.__get_products` after the HTTP call: either the
process exits (non-200 status: print and `sys.exit(1)`), or `Product`
construction raises, or a product list is returned. -/
inductive GetResult where
  | exit (code : Nat) (message : String)
  | raised (err : InitError)
  | ok (products : List Product)
deriving DecidableEq

/-- Whether a `GetResult` is a returned product list. -/
def GetResult.isProducts : GetResult → Bool
  | GetResult.ok _ => true
  | _ => false

/-- A search HTTP response as the parser sees it: the status code and the
parsed Atom `entry` elements in document order. -/
structure SearchResponse where
  status_code : Nat
  entries : List Entry
deriving DecidableEq

/-- The list comprehension of line 145: build one `Product` per entry,
left to right, stopping at the first constructor failure, which
propagates as an uncaught exception. -/
def mapME (f : Entry → Except InitError Product) : List Entry → Except InitError (List Product)
  | [] => Except.ok []
  | x :: xs =>
    match f x with
    | Except.error err => Except.error err
    | Except.ok y =>
      match mapME f xs with
      | Except.error err => Except.error err
      | Except.ok ys => Except.ok (y :: ys)

/-- `Search.__get_products` after the HTTP call (lines 140-147): a
non-200 status prints the code and terminates the process (lines 140-142,
modelled as `GetResult.exit 1 message`); on 200 one `Product` per entry
is built in document order (lines 144-147). -/
def getProducts (auth : String × String) (resp : SearchResponse) : GetResult :=
  if resp.status_code ≠ 200 then
    GetResult.exit 1 ("Error, got HTTP status code: " ++ toString resp.status_code)
  else
    match mapME (mkProduct auth) resp.entries with
    | Except.error err => GetResult.raised err
    | Except.ok ps => GetResult.ok ps

theorem mapMEOk (f : Entry → Except InitError Product) (l : List Entry) (ys : List Product)
    (h : mapME f l = Except.ok ys) :
    ys.length = l.length
      ∧ ∀ i (h1 : i < l.length) (h2 : i < ys.length),
          f (l.get ⟨i, h1⟩) = Except.ok (ys.get ⟨i, h2⟩) := by
  induction l generalizing ys with
  | nil =>
    simp only [mapME, Except.ok.injEq] at h
    subst h
    exact ⟨rfl, fun i h1 => absurd h1 (by simp)⟩
  | cons x xs ih =>
    cases hfx : f x with
    | error err => simp [mapME, hfx] at h
    | ok y =>
      cases hxs : mapME f xs with
      | error err => simp [mapME, hfx, hxs] at h
      | ok ys' =>
        simp only [mapME, hfx, hxs, Except.ok.injEq] at h
        subst h
        have ihh := ih ys' hxs
        refine ⟨by simp [ihh.1], ?_⟩
        intro i h1 h2
        cases i with
        | zero => simpa using hfx
        | succ n =>
          have hn1 : n < xs.length := by simpa using h1
          have hn2 : n < ys'.length := by simp at h2; omega
          simpa using ihh.2 n hn1 hn2

/-- C7 (amended).  A non-200 search response makes the process print the
status code and exit without producing a product list; a 200 response
whose every entry constructs a `Product` (id element and link `href`
present) yields a product list with one product per entry in document
order.  (A 200 response containing a malformed entry instead raises
during construction, see the counterexample.) -/
theorem c7_status_gate (auth : String × String) (resp : SearchResponse) :
    (resp.status_code ≠ 200 →
        getProducts auth resp
          = GetResult.exit 1 ("Error, got HTTP status code: " ++ toString resp.status_code))
      ∧ (resp.status_code = 200 → ∀ ps, mapME (mkProduct auth) resp.entries = Except.ok ps →
          getProducts auth resp = GetResult.ok ps
            ∧ ps.length = resp.entries.length
            ∧ ∀ i (h1 : i < resp.entries.length) (h2 : i < ps.length),
                mkProduct auth (resp.entries.get ⟨i, h1⟩) = Except.ok (ps.get ⟨i, h2⟩)) := by
  constructor
  · intro h
    simp [getProducts, h]
  · intro h ps hps
    have hm := mapMEOk (mkProduct auth) resp.entries ps hps
    exact ⟨by simp [getProducts, h, hps], hm.1, hm.2⟩

/-- C7 witness: a 401 response exits with the status printed; a 200
response with one well-formed entry returns one product. -/
theorem c7_status_gate_witness :
    getProducts ("u", "p") (SearchResponse.mk 401 [])
        = GetResult.exit 1 ("Error, got HTTP status code: "
            ++ toString (SearchResponse.mk 401 ([] : List Entry)).status_code)
      ∧ getProducts ("u", "p") (SearchResponse.mk 200 [entryGood]) = GetResult.ok [productGood]
      ∧ ([productGood] : List Product).length = ([entryGood] : List Entry).length :=
  ⟨(c7_status_gate ("u", "p") (SearchResponse.mk 401 [])).1 (by decide),
   ((c7_status_gate ("u", "p") (SearchResponse.mk 200 [entryGood])).2 rfl [productGood] rfl).1,
   ((c7_status_gate ("u", "p") (SearchResponse.mk 200 [entryGood])).2 rfl [productGood] rfl).2.1⟩

/-- C7 counterexample: a 200 response whose single entry lacks the Atom
`id` element makes `Product.__init__` raise, so no product list is
returned even though the status is 200. -/
theorem c7_200_raises_counterexample :
    (SearchResponse.mk 200 [entryNoId]).status_code = 200
      ∧ getProducts ("u", "p") (SearchResponse.mk 200 [entryNoId])
          = GetResult.raised InitError.missingId
      ∧ (getProducts ("u", "p") (SearchResponse.mk 200 [entryNoId])).isProducts = false :=
  ⟨rfl, rfl, rfl⟩

/-! ## `Search.search_position` (lines 153-170) -/

/-- Python `str()` of a float coordinate.  Coordinates are modelled as
exact rationals; integral values print as CPython prints integral floats
(`"57.0"`), and only integral values arise in the claims. -/
def pyFloatStr (q : ℚ) : String :=
  if q.den = 1 then toString q.num ++ ".0" else toString q

theorem pyFloatStrIntCast (n : ℤ) : pyFloatStr (n : ℚ) = toString n ++ ".0" := by
  simp [pyFloatStr, Rat.den_intCast, Rat.num_intCast]

/-- The footprint polygon corners written on lines 159-164, in source
order: lon-lat pairs starting at (min lon, max lat), ring closed by
repeating the first corner. -/
def positionCorners (lat lon : ℚ) : List (ℚ × ℚ) :=
  [(lon - 5, lat + 5), (lon + 5, lat + 5), (lon + 5, lat - 5), (lon - 5, lat - 5),
    (lon - 5, lat + 5)]

/-- The `POLYGON((...))` literal of lines 159-164. -/
def positionFootprint (lat lon : ℚ) : String :=
  "POLYGON((" ++ String.intercalate ", "
    ((positionCorners lat lon).map (fun c => pyFloatStr c.1 ++ " " ++ pyFloatStr c.2)) ++ "))"

/-- The options mapping built by `Search.search_position`
(lines 165-168), in insertion order. -/
def searchPositionOptions (lat lon : ℚ) (days_back : Nat) : List (String × String) :=
  [("ingestiondate", "[NOW-" ++ toString days_back ++ "DAYS TO NOW]"),
   ("footprint", "\"Intersects(" ++ positionFootprint lat lon ++ ")\""),
   ("productType", "GRD")]

/-- C4.  For position (62.00, 15.00) with the default 7-day lookback the
footprint polygon corners are (10,67), (20,67), (20,57), (10,57) closing
back to (10,67) in lon-lat order inside an `Intersects(...)` predicate,
`ingestiondate` is `[NOW-7DAYS TO NOW]`, and `productType` is `GRD`. -/
theorem c4_search_position_options :
    positionCorners 62 15 = [(10, 67), (20, 67), (20, 57), (10, 57), (10, 67)]
      ∧ searchPositionOptions 62 15 7
        = [("ingestiondate", "[NOW-7DAYS TO NOW]"),
           ("footprint",
             "\"Intersects(POLYGON((10.0 67.0, 20.0 67.0, 20.0 57.0, 10.0 57.0, 10.0 67.0)))\""),
           ("productType", "GRD")] := by
  have e10 : pyFloatStr ((15 : ℚ) - 5) = "10.0" := by
    rw [show (15 : ℚ) - 5 = ((10 : ℤ) : ℚ) by norm_num, pyFloatStrIntCast]
    decide
  have e20 : pyFloatStr ((15 : ℚ) + 5) = "20.0" := by
    rw [show (15 : ℚ) + 5 = ((20 : ℤ) : ℚ) by norm_num, pyFloatStrIntCast]
    decide
  have e67 : pyFloatStr ((62 : ℚ) + 5) = "67.0" := by
    rw [show (62 : ℚ) + 5 = ((67 : ℤ) : ℚ) by norm_num, pyFloatStrIntCast]
    decide
  have e57 : pyFloatStr ((62 : ℚ) - 5) = "57.0" := by
    rw [show (62 : ℚ) - 5 = ((57 : ℤ) : ℚ) by norm_num, pyFloatStrIntCast]
    decide
  constructor
  · norm_num [positionCorners, Prod.ext_iff]
  · simp only [searchPositionOptions, positionFootprint, positionCorners, List.map_cons,
      List.map_nil, e10, e20, e67, e57]
    decide

/-! ## KML ring coordinates (`Product.to_kml`, lines 104-106) -/

/-- C8.  Rendering a product whose footprint is
`POLYGON((10 60,11 60,11 61,10 61,10 60))` yields the linear-ring
coordinate text `10,60,0 11,60,0 11,61,0 10,61,0 10,60,0`: each
`lon lat` pair becomes `lon,lat,0` and the pairs are joined by single
spaces. -/
theorem c8_kml_ring_coordinates :
    kmlCoordText (strBytes "POLYGON((10 60,11 60,11 61,10 61,10 60))")
      = some (strBytes "10,60,0 11,60,0 11,61,0 10,61,0 10,60,0") := by
  decide
